import Mathlib

/-!
Verification of `core_cpp/src/matrix_ops.cpp` (numerical-geometry engine).

Numeric model: single-precision floats are modelled by exact rational
arithmetic extended with an explicit quiet-NaN value (`F.nan`).  The model
follows IEEE-754 NaN semantics: every arithmetic operation with a NaN
operand yields NaN, and every ordered comparison involving NaN is false.
Rounding is not modelled (the spec states batch-transform properties "up
to floating rounding", and no claim depends on a particular rounded
value).  Overflow is not observable in the `F` model: `x / 0`, which IEEE
maps to an infinity, is mapped to NaN here, and in the embedded code this
value only ever occurs in SIMD lanes that the validity mask discards.
The one operation whose claimed behaviour does turn on float32 overflow
is `determinant`; for it a second value model `G` with IEEE signed
infinities and overflow semantics is used (`determinant32` below).
-/

namespace MatrixOps

/-- A single-precision float value: an exact rational or quiet NaN. -/
inductive F where
  | num : ℚ → F
  | nan : F
deriving DecidableEq, Repr

/-- IEEE addition: NaN-propagating exact addition. -/
def F.add : F → F → F
  | num a, num b => num (a + b)
  | _, _ => nan

/-- IEEE subtraction: NaN-propagating exact subtraction. -/
def F.sub : F → F → F
  | num a, num b => num (a - b)
  | _, _ => nan

/-- IEEE multiplication: NaN-propagating exact multiplication. -/
def F.mul : F → F → F
  | num a, num b => num (a * b)
  | _, _ => nan

/-- Division.  Division by zero, which IEEE maps to an infinity, is mapped
to NaN in this exact model (see the module comment); NaN propagates. -/
def F.div : F → F → F
  | num a, num b => if b = 0 then nan else num (a / b)
  | _, _ => nan

/-- `std::abs` / `wasm_f32x4_abs`: absolute value, NaN-propagating. -/
def F.abs : F → F
  | num a => num |a|
  | nan => nan

/-- IEEE `<`: false whenever an operand is NaN. -/
def F.lt : F → F → Bool
  | num a, num b => decide (a < b)
  | _, _ => false

/-- IEEE `>=`: false whenever an operand is NaN. -/
def F.ge : F → F → Bool
  | num a, num b => decide (b ≤ a)
  | _, _ => false

/-- NaN test (`isNaN` in Eigen / `x != x` in C). -/
def F.isNaN : F → Bool
  | nan => true
  | _ => false

/-- Pairwise maximum (used for Eigen's `maxCoeff`); NaN-propagating.
Eigen leaves `maxCoeff` unspecified on NaN inputs; the claims hold for
every value of the resulting threshold, so any fixed choice is sound. -/
def F.max : F → F → F
  | num a, num b => num (Max.max a b)
  | _, _ => nan

/-- `MATRIX_INVERSE_EPSILON = 1e-7f` (exact decimal value; the float32
rounding of the literal differs negligibly and no claim depends on it). -/
def MATRIX_INVERSE_EPSILON : ℚ := 1 / 10000000

/-- `MATRIX_SVD_EPSILON = 1e-6f` (exact decimal value, as above). -/
def MATRIX_SVD_EPSILON : ℚ := 1 / 1000000

/-- A `Matrix3f` view.  Eigen stores column-major; field `mK` is the K-th
float of the underlying buffer, so (matching the comments in the source)
`m0 = M(0,0)`, `m1 = M(1,0)`, `m2 = M(2,0)`, `m3 = M(0,1)`, `m4 = M(1,1)`,
`m5 = M(2,1)`, `m6 = M(0,2)`, `m7 = M(1,2)`, `m8 = M(2,2)`. -/
structure M3 where
  m0 : F
  m1 : F
  m2 : F
  m3 : F
  m4 : F
  m5 : F
  m6 : F
  m7 : F
  m8 : F
deriving DecidableEq, Repr

/-- The 3×3 matrix with all nine entries equal to `c` (`setConstant`). -/
def m3const (c : F) : M3 := ⟨c, c, c, c, c, c, c, c, c⟩

/-- Whether any of the nine entries is NaN (`array().isNaN().any()`). -/
def m3hasNaN (m : M3) : Bool :=
  m.m0.isNaN || m.m1.isNaN || m.m2.isNaN || m.m3.isNaN || m.m4.isNaN ||
  m.m5.isNaN || m.m6.isNaN || m.m7.isNaN || m.m8.isNaN

/-- The 3×3 identity matrix (column-major layout as in `M3`). -/
def id3 : M3 :=
  ⟨F.num 1, F.num 0, F.num 0, F.num 0, F.num 1, F.num 0, F.num 0, F.num 0, F.num 1⟩

/-! ## WASM SIMD primitives

A `v128` of four float lanes is modelled as `ℕ → F`; only lanes 0..3 are
ever read.  Lane-wise arithmetic is exact-rational with NaN propagation.
`wasm_f32x4_ge` produces a per-lane mask; in the source the mask lanes are
all-ones or all-zeros bit patterns and `wasm_v128_bitselect` is bitwise,
which on such masks is exactly a per-lane select, as modelled here. -/

/-- Four float lanes (lanes 0..3 are the meaningful ones). -/
def V4 : Type := ℕ → F

def wasm_f32x4_splat (c : F) : V4 := fun _ => c

def wasm_f32x4_mul (a b : V4) : V4 := fun k => F.mul (a k) (b k)

def wasm_f32x4_add (a b : V4) : V4 := fun k => F.add (a k) (b k)

def wasm_f32x4_div (a b : V4) : V4 := fun k => F.div (a k) (b k)

def wasm_f32x4_abs (a : V4) : V4 := fun k => F.abs (a k)

/-- Per-lane `>=` mask. -/
def wasm_f32x4_ge (a b : V4) : ℕ → Bool := fun k => F.ge (a k) (b k)

/-- Bitwise select; on all-ones/all-zeros mask lanes this is a per-lane
select of `a` (mask set) or `b` (mask clear). -/
def wasm_v128_bitselect (a b : V4) (mask : ℕ → Bool) : V4 :=
  fun k => if mask k then a k else b k

/-- Load four consecutive floats starting at `idx`. -/
def wasm_v128_load (buf : ℕ → F) (idx : ℕ) : V4 := fun k => buf (idx + k)

/-- Lane `t` of the 8-lane concatenation of `a` and `b` (shuffle source). -/
def sel8 (a b : V4) (t : ℕ) : F := if t < 4 then a t else b (t - 4)

/-- `wasm_i32x4_shuffle(a, b, s0, s1, s2, s3)`: lane `k` of the result is
lane `sk` of the 8-lane concatenation of `a` and `b`. -/
def wasm_i32x4_shuffle (a b : V4) (s0 s1 s2 s3 : ℕ) : V4 :=
  fun k =>
    if k = 0 then sel8 a b s0
    else if k = 1 then sel8 a b s1
    else if k = 2 then sel8 a b s2
    else sel8 a b s3

/-- Store four consecutive floats starting at `idx`. -/
def wasm_v128_store (buf : ℕ → F) (idx : ℕ) (v : V4) (j : ℕ) : F :=
  if idx ≤ j ∧ j < idx + 4 then v (j - idx) else buf j

/-- Store one float at `idx` (a scalar `pts_out[idx] = v`). -/
def store1 (buf : ℕ → F) (idx : ℕ) (v : F) (j : ℕ) : F :=
  if j = idx then v else buf j

/-! ## `transform_points_batch`

Point buffers are `ℕ → F` (interleaved x0,y0,x1,y1,…).  `num_points` is a
C `int`, modelled as `ℤ`; for a non-positive count neither loop in the
source runs (both conditions `i < num_points_simd` and `i < num_points`
fail at `i = 0`), which `Int.toNat` captures exactly. -/

/-- One iteration of the SIMD main loop of `transform_points_batch`
(processes the four points `i, i+1, i+2, i+3`), straight from the source:
loads, shuffles to x/y lanes, X/Y/W per lane, validity mask from
`|W| >= eps`, reciprocal multiply, per-lane NaN select, re-interleave,
two stores. -/
def simd_body (M : M3) (pts_in : ℕ → F) (i : ℕ) (pts_out : ℕ → F) : ℕ → F :=
  let base_idx := 2 * i
  let points_xy12 := wasm_v128_load pts_in base_idx
  let points_xy34 := wasm_v128_load pts_in (base_idx + 4)
  let x1234 := wasm_i32x4_shuffle points_xy12 points_xy34 0 2 4 6
  let y1234 := wasm_i32x4_shuffle points_xy12 points_xy34 1 3 5 7
  let x_p1 := wasm_f32x4_mul (wasm_f32x4_splat M.m0) x1234
  let x_p2 := wasm_f32x4_mul (wasm_f32x4_splat M.m3) y1234
  let x_unscaled := wasm_f32x4_add (wasm_f32x4_add x_p1 x_p2) (wasm_f32x4_splat M.m6)
  let y_p1 := wasm_f32x4_mul (wasm_f32x4_splat M.m1) x1234
  let y_p2 := wasm_f32x4_mul (wasm_f32x4_splat M.m4) y1234
  let y_unscaled := wasm_f32x4_add (wasm_f32x4_add y_p1 y_p2) (wasm_f32x4_splat M.m7)
  let w_p1 := wasm_f32x4_mul (wasm_f32x4_splat M.m2) x1234
  let w_p2 := wasm_f32x4_mul (wasm_f32x4_splat M.m5) y1234
  let w := wasm_f32x4_add (wasm_f32x4_add w_p1 w_p2) (wasm_f32x4_splat M.m8)
  let w_abs := wasm_f32x4_abs w
  let valid_w_mask := wasm_f32x4_ge w_abs (wasm_f32x4_splat (F.num MATRIX_SVD_EPSILON))
  let inv_w := wasm_f32x4_div (wasm_f32x4_splat (F.num 1)) w
  let x_scaled := wasm_f32x4_mul x_unscaled inv_w
  let y_scaled := wasm_f32x4_mul y_unscaled inv_w
  let x_final := wasm_v128_bitselect x_scaled (wasm_f32x4_splat F.nan) valid_w_mask
  let y_final := wasm_v128_bitselect y_scaled (wasm_f32x4_splat F.nan) valid_w_mask
  let out_xy12 := wasm_i32x4_shuffle x_final y_final 0 4 1 5
  let out_xy34 := wasm_i32x4_shuffle x_final y_final 2 6 3 7
  wasm_v128_store (wasm_v128_store pts_out base_idx out_xy12) (base_idx + 4) out_xy34

/-- One iteration of the scalar residual loop of `transform_points_batch`
(processes point `i`), straight from the source. -/
def scalar_body (M : M3) (pts_in : ℕ → F) (i : ℕ) (pts_out : ℕ → F) : ℕ → F :=
  let idx := 2 * i
  let x_in := pts_in idx
  let y_in := pts_in (idx + 1)
  let X := F.add (F.add (F.mul M.m0 x_in) (F.mul M.m3 y_in)) M.m6
  let Y := F.add (F.add (F.mul M.m1 x_in) (F.mul M.m4 y_in)) M.m7
  let W := F.add (F.add (F.mul M.m2 x_in) (F.mul M.m5 y_in)) M.m8
  if F.lt (F.abs W) (F.num MATRIX_SVD_EPSILON) then
    store1 (store1 pts_out idx F.nan) (idx + 1) F.nan
  else
    let invW := F.div (F.num 1) W
    store1 (store1 pts_out idx (F.mul X invW)) (idx + 1) (F.mul Y invW)

/-- The SIMD main loop: `g` iterations of `simd_body` starting at point
index `i` (the source loop `for (; i < num_points_simd; i += 4)`). -/
def simd_loop (M : M3) (pts_in : ℕ → F) : ℕ → ℕ → (ℕ → F) → ℕ → F
  | _, 0, pts_out => pts_out
  | i, g + 1, pts_out => simd_loop M pts_in (i + 4) g (simd_body M pts_in i pts_out)

/-- The scalar residual loop: `r` iterations of `scalar_body` starting at
point index `i` (the source loop `for (; i < num_points; ++i)`). -/
def scalar_loop (M : M3) (pts_in : ℕ → F) : ℕ → ℕ → (ℕ → F) → ℕ → F
  | _, 0, pts_out => pts_out
  | i, r + 1, pts_out => scalar_loop M pts_in (i + 1) r (scalar_body M pts_in i pts_out)

/-- `transform_points_batch(matrix, points_in, points_out, num_points)`:
`num_points_simd = num_points - num_points % 4` points go through the SIMD
loop in groups of four, the remaining `num_points % 4` through the scalar
loop.  Returns the final contents of the output buffer. -/
def transform_points_batch (M : M3) (pts_in pts_out : ℕ → F) (num_points : ℤ) : ℕ → F :=
  let n := num_points.toNat
  let num_points_simd := n - n % 4
  scalar_loop M pts_in num_points_simd (n - num_points_simd)
    (simd_loop M pts_in 0 (num_points_simd / 4) pts_out)

/-- The per-point result of the scalar formula of the source (and of §4.4
of the spec): X/Y/W, NaN pair when `|W| < MATRIX_SVD_EPSILON`, otherwise
the reciprocal-scaled pair. -/
def point_out (M : M3) (x_in y_in : F) : F × F :=
  let X := F.add (F.add (F.mul M.m0 x_in) (F.mul M.m3 y_in)) M.m6
  let Y := F.add (F.add (F.mul M.m1 x_in) (F.mul M.m4 y_in)) M.m7
  let W := F.add (F.add (F.mul M.m2 x_in) (F.mul M.m5 y_in)) M.m8
  if F.lt (F.abs W) (F.num MATRIX_SVD_EPSILON) then (F.nan, F.nan)
  else (F.mul X (F.div (F.num 1) W), F.mul Y (F.div (F.num 1) W))

/-! ## Value-level lemmas -/

/-- Multiplying by the reciprocal computes the quotient in the exact
model (this is the step where the source's `X * (1.0f/W)` meets the
spec's `X/W`; exact in rationals, NaN cases agree). -/
lemma F.mul_one_div (X W : F) : F.mul X (F.div (F.num 1) W) = F.div X W := by
  cases X with
  | nan => cases W with
    | nan => rfl
    | num b =>
      by_cases hb : b = 0 <;> simp [F.mul, F.div, hb]
  | num a =>
    cases W with
    | nan => rfl
    | num b =>
      by_cases hb : b = 0 <;> simp [F.mul, F.div, hb, mul_one_div, div_eq_mul_inv]

/-- The SIMD select (`keep the scaled value where |W| >= eps, NaN
elsewhere`) agrees with the scalar branch (`NaN where |W| < eps, scaled
value elsewhere`): the only subtle case is `W = NaN`, where both
comparisons are false and both paths produce NaN. -/
lemma bitselect_point (X W : F) (e : ℚ) :
    (if F.ge (F.abs W) (F.num e) then F.mul X (F.div (F.num 1) W) else F.nan)
      = (if F.lt (F.abs W) (F.num e) then F.nan
         else F.mul X (F.div (F.num 1) W)) := by
  cases W with
  | nan => cases X <;> simp [F.ge, F.lt, F.abs, F.mul, F.div]
  | num w =>
    by_cases h : |w| < e
    · simp [F.ge, F.lt, F.abs, h, not_le.mpr h]
    · simp [F.ge, F.lt, F.abs, h, not_lt.mp h]

lemma point_out_fst (M : M3) (x y : F) :
    (point_out M x y).1
      = (if F.lt (F.abs (F.add (F.add (F.mul M.m2 x) (F.mul M.m5 y)) M.m8))
            (F.num MATRIX_SVD_EPSILON) then F.nan
         else F.mul (F.add (F.add (F.mul M.m0 x) (F.mul M.m3 y)) M.m6)
            (F.div (F.num 1)
              (F.add (F.add (F.mul M.m2 x) (F.mul M.m5 y)) M.m8))) := by
  simp only [point_out]
  split <;> rfl

lemma point_out_snd (M : M3) (x y : F) :
    (point_out M x y).2
      = (if F.lt (F.abs (F.add (F.add (F.mul M.m2 x) (F.mul M.m5 y)) M.m8))
            (F.num MATRIX_SVD_EPSILON) then F.nan
         else F.mul (F.add (F.add (F.mul M.m1 x) (F.mul M.m4 y)) M.m7)
            (F.div (F.num 1)
              (F.add (F.add (F.mul M.m2 x) (F.mul M.m5 y)) M.m8))) := by
  simp only [point_out]
  split <;> rfl

/-! ## Characterization of the loop bodies -/

lemma scalar_body_other (M : M3) (pin out : ℕ → F) (i j : ℕ)
    (h1 : j ≠ 2 * i) (h2 : j ≠ 2 * i + 1) :
    scalar_body M pin i out j = out j := by
  simp only [scalar_body]
  split <;> simp [store1, h1, h2]

lemma scalar_body_store (M : M3) (pin out : ℕ → F) (i : ℕ) :
    scalar_body M pin i out (2 * i) = (point_out M (pin (2 * i)) (pin (2 * i + 1))).1
    ∧ scalar_body M pin i out (2 * i + 1)
        = (point_out M (pin (2 * i)) (pin (2 * i + 1))).2 := by
  simp only [scalar_body, point_out]
  split <;> constructor <;> simp [store1]

/-- Evaluating the pair of 16-byte stores that ends a SIMD iteration. -/
lemma double_store_at (buf : ℕ → F) (b : ℕ) (v w : V4) (j : ℕ) :
    wasm_v128_store (wasm_v128_store buf b v) (b + 4) w j
      = if b ≤ j ∧ j < b + 4 then v (j - b)
        else if b + 4 ≤ j ∧ j < b + 8 then w (j - (b + 4))
        else buf j := by
  simp only [wasm_v128_store]
  by_cases h1 : b + 4 ≤ j ∧ j < b + 4 + 4
  · rw [if_pos h1, if_neg (by omega), if_pos (by omega)]
  · rw [if_neg h1]
    by_cases h2 : b ≤ j ∧ j < b + 4
    · rw [if_pos h2, if_pos h2]
    · rw [if_neg h2, if_neg h2, if_neg (by omega)]

lemma simd_body_unchanged (M : M3) (pin out : ℕ → F) (i j : ℕ)
    (h : j < 2 * i ∨ 2 * i + 8 ≤ j) :
    simd_body M pin i out j = out j := by
  simp only [simd_body, double_store_at]
  rw [if_neg (by omega), if_neg (by omega)]

lemma simd_body_write (M : M3) (pin out : ℕ → F) (i k : ℕ) (hk : k < 4) :
    simd_body M pin i out (2 * i + 2 * k)
        = (point_out M (pin (2 * i + 2 * k)) (pin (2 * i + 2 * k + 1))).1
    ∧ simd_body M pin i out (2 * i + 2 * k + 1)
        = (point_out M (pin (2 * i + 2 * k)) (pin (2 * i + 2 * k + 1))).2 := by
  interval_cases k <;>
    refine ⟨?_, ?_⟩ <;>
    · simp only [simd_body, double_store_at, point_out_fst, point_out_snd,
        wasm_v128_load, wasm_f32x4_splat, wasm_f32x4_mul, wasm_f32x4_add,
        wasm_f32x4_div, wasm_f32x4_abs, wasm_f32x4_ge, wasm_v128_bitselect,
        wasm_i32x4_shuffle, sel8]
      norm_num [Nat.add_assoc, Nat.add_sub_cancel_left, Nat.add_sub_add_left]
      rw [bitselect_point]

/-! ## Characterization of the loops and of `transform_points_batch` -/

lemma scalar_loop_unchanged (M : M3) (pin : ℕ → F) (r : ℕ) :
    ∀ s out j, (j < 2 * s ∨ 2 * (s + r) ≤ j) → scalar_loop M pin s r out j = out j := by
  induction r with
  | zero => intro s out j _; rfl
  | succ r ih =>
    intro s out j h
    simp only [scalar_loop]
    rw [ih (s + 1) _ j (by omega)]
    exact scalar_body_other M pin out s j (by omega) (by omega)

lemma scalar_loop_written (M : M3) (pin : ℕ → F) (r : ℕ) :
    ∀ s out p, s ≤ p → p < s + r →
      scalar_loop M pin s r out (2 * p) = (point_out M (pin (2 * p)) (pin (2 * p + 1))).1
      ∧ scalar_loop M pin s r out (2 * p + 1)
          = (point_out M (pin (2 * p)) (pin (2 * p + 1))).2 := by
  induction r with
  | zero => intro s out p h1 h2; omega
  | succ r ih =>
    intro s out p h1 h2
    simp only [scalar_loop]
    by_cases hp : s = p
    · subst hp
      rw [scalar_loop_unchanged M pin r (s + 1) _ (2 * s) (by omega),
        scalar_loop_unchanged M pin r (s + 1) _ (2 * s + 1) (by omega)]
      exact scalar_body_store M pin out s
    · exact ih (s + 1) _ p (by omega) (by omega)

lemma simd_loop_unchanged (M : M3) (pin : ℕ → F) (g : ℕ) :
    ∀ i out j, (j < 2 * i ∨ 2 * (i + 4 * g) ≤ j) → simd_loop M pin i g out j = out j := by
  induction g with
  | zero => intro i out j _; rfl
  | succ g ih =>
    intro i out j h
    simp only [simd_loop]
    rw [ih (i + 4) _ j (by omega)]
    exact simd_body_unchanged M pin out i j (by omega)

lemma simd_loop_written (M : M3) (pin : ℕ → F) (g : ℕ) :
    ∀ i out p, i ≤ p → p < i + 4 * g →
      simd_loop M pin i g out (2 * p) = (point_out M (pin (2 * p)) (pin (2 * p + 1))).1
      ∧ simd_loop M pin i g out (2 * p + 1)
          = (point_out M (pin (2 * p)) (pin (2 * p + 1))).2 := by
  induction g with
  | zero => intro i out p h1 h2; omega
  | succ g ih =>
    intro i out p h1 h2
    simp only [simd_loop]
    by_cases hp : p < i + 4
    · rw [simd_loop_unchanged M pin g (i + 4) _ (2 * p) (by omega),
        simd_loop_unchanged M pin g (i + 4) _ (2 * p + 1) (by omega)]
      have hw := simd_body_write M pin out i (p - i) (by omega)
      have e1 : 2 * i + 2 * (p - i) = 2 * p := by omega
      rw [e1] at hw
      exact hw
    · exact ih (i + 4) _ p (by omega) (by omega)

/-- Frame part of the batch transform: buffer positions at or beyond
`2 * num_points` are never written (and nothing is written at all for a
non-positive count, whose `toNat` is `0`). -/
lemma transform_unchanged (M : M3) (pin pout : ℕ → F) (np : ℤ) (j : ℕ)
    (hj : 2 * np.toNat ≤ j) :
    transform_points_batch M pin pout np j = pout j := by
  simp only [transform_points_batch]
  rw [scalar_loop_unchanged M pin _ _ _ j (by omega)]
  exact simd_loop_unchanged M pin _ 0 pout j (by omega)

/-- Pointwise description of the batch transform: slot `p < num_points`
of the output holds the scalar-formula projection of input point `p`,
whether `p` was handled by the SIMD main loop or by the scalar tail. -/
lemma transform_written (M : M3) (pin pout : ℕ → F) (np : ℤ) (p : ℕ)
    (hp : p < np.toNat) :
    transform_points_batch M pin pout np (2 * p)
        = (point_out M (pin (2 * p)) (pin (2 * p + 1))).1
    ∧ transform_points_batch M pin pout np (2 * p + 1)
        = (point_out M (pin (2 * p)) (pin (2 * p + 1))).2 := by
  simp only [transform_points_batch]
  by_cases hps : p < np.toNat - np.toNat % 4
  · rw [scalar_loop_unchanged M pin _ _ _ (2 * p) (by omega),
      scalar_loop_unchanged M pin _ _ _ (2 * p + 1) (by omega)]
    exact simd_loop_written M pin _ 0 pout p (by omega) (by omega)
  · exact scalar_loop_written M pin _ _ _ p (by omega) (by omega)

/-! ## Auxiliary value lemmas for the claim theorems -/

lemma F.not_nan (x : F) (h : F.isNaN x = false) : ∃ q, x = F.num q := by
  cases x with
  | num q => exact ⟨q, rfl⟩
  | nan => simp [F.isNaN] at h

/-- The identity matrix projects a finite point to itself (exactly, in
the exact-arithmetic model): `X = x`, `Y = y`, `W = 1`. -/
lemma point_out_id3 (a b : ℚ) :
    point_out id3 (F.num a) (F.num b) = (F.num a, F.num b) := by
  simp [point_out, id3, F.mul, F.add, F.abs, F.lt, F.div, MATRIX_SVD_EPSILON]
  norm_num

/-! ## Claim theorems for the batch point projector -/

/-- Claim C2: the SIMD main loop (groups of 4) followed by the scalar tail
computes, at every buffer position, exactly the result of running the
scalar per-point loop with the same formula and threshold over all N
points. -/
theorem C2_simd_scalar_equiv (M : M3) (pin pout : ℕ → F) (np : ℤ) (j : ℕ) :
    transform_points_batch M pin pout np j = scalar_loop M pin 0 np.toNat pout j := by
  by_cases hj : 2 * np.toNat ≤ j
  · rw [transform_unchanged M pin pout np j hj,
      scalar_loop_unchanged M pin np.toNat 0 pout j (by omega)]
  · push_neg at hj
    rcases Nat.even_or_odd j with he | ho
    · obtain ⟨p, hp⟩ := he
      have hj2 : j = 2 * p := by omega
      subst hj2
      rw [(transform_written M pin pout np p (by omega)).1,
        (scalar_loop_written M pin np.toNat 0 pout p (by omega) (by omega)).1]
    · obtain ⟨p, hp⟩ := ho
      subst hp
      rw [(transform_written M pin pout np p (by omega)).2,
        (scalar_loop_written M pin np.toNat 0 pout p (by omega) (by omega)).2]

/-- Claim C3: output slot `i` of the batch transform is `(NaN, NaN)` when
`|W| < MATRIX_SVD_EPSILON` and `(X/W, Y/W)` otherwise, where
`X = M00*x + M01*y + M02`, `Y = M10*x + M11*y + M12`,
`W = M20*x + M21*y + M22` for input point `i` (fields in column-major
`M3` layout: `M00 = m0`, `M01 = m3`, `M02 = m6`, etc.). -/
theorem C3_per_point_formula (M : M3) (pin pout : ℕ → F) (np : ℤ) (i : ℕ)
    (hi : i < np.toNat) :
    transform_points_batch M pin pout np (2 * i)
      = (if F.lt (F.abs (F.add (F.add (F.mul M.m2 (pin (2 * i)))
              (F.mul M.m5 (pin (2 * i + 1)))) M.m8)) (F.num MATRIX_SVD_EPSILON)
         then F.nan
         else F.div (F.add (F.add (F.mul M.m0 (pin (2 * i)))
              (F.mul M.m3 (pin (2 * i + 1)))) M.m6)
           (F.add (F.add (F.mul M.m2 (pin (2 * i)))
              (F.mul M.m5 (pin (2 * i + 1)))) M.m8))
    ∧ transform_points_batch M pin pout np (2 * i + 1)
      = (if F.lt (F.abs (F.add (F.add (F.mul M.m2 (pin (2 * i)))
              (F.mul M.m5 (pin (2 * i + 1)))) M.m8)) (F.num MATRIX_SVD_EPSILON)
         then F.nan
         else F.div (F.add (F.add (F.mul M.m1 (pin (2 * i)))
              (F.mul M.m4 (pin (2 * i + 1)))) M.m7)
           (F.add (F.add (F.mul M.m2 (pin (2 * i)))
              (F.mul M.m5 (pin (2 * i + 1)))) M.m8)) := by
  have h := transform_written M pin pout np i hi
  rw [point_out_fst, point_out_snd] at h
  simp only [F.mul_one_div] at h
  exact h

/-- Witness for C3 at a concrete input: the identity matrix maps the
point `(2, 2)` (batch of one) to `(2, 2)`. -/
theorem C3_witness :
    transform_points_batch id3 (fun _ => F.num 2) (fun _ => F.nan) 1 0 = F.num 2
    ∧ transform_points_batch id3 (fun _ => F.num 2) (fun _ => F.nan) 1 1 = F.num 2 := by
  have h := C3_per_point_formula id3 (fun _ => F.num 2) (fun _ => F.nan) 1 0 (by decide)
  simp [id3, F.mul, F.add, F.abs, F.lt, F.div, MATRIX_SVD_EPSILON] at h
  norm_num at h
  simpa using h

/-- Claim C7: with the identity matrix, the batch transform copies every
input slot of every batch of finite points to the output, for every batch
size (in particular N = 0, 1, 3, 4, 5, 100: below, on, and above lane
boundaries).  Finiteness of the points is the data-model invariant of §3
of the spec; a NaN coordinate poisons `W` and is not a point. -/
theorem C7_identity (pin pout : ℕ → F) (np : ℤ)
    (hfin : ∀ t, t < 2 * np.toNat → F.isNaN (pin t) = false) :
    ∀ j, j < 2 * np.toNat → transform_points_batch id3 pin pout np j = pin j := by
  intro j hj
  rcases Nat.even_or_odd j with he | ho
  · obtain ⟨p, hp⟩ := he
    have hj2 : j = 2 * p := by omega
    subst hj2
    obtain ⟨a, ha⟩ := F.not_nan _ (hfin (2 * p) (by omega))
    obtain ⟨b, hb⟩ := F.not_nan _ (hfin (2 * p + 1) (by omega))
    rw [(transform_written id3 pin pout np p (by omega)).1, ha, hb, point_out_id3]
  · obtain ⟨p, hp⟩ := ho
    subst hp
    obtain ⟨a, ha⟩ := F.not_nan _ (hfin (2 * p) (by omega))
    obtain ⟨b, hb⟩ := F.not_nan _ (hfin (2 * p + 1) (by omega))
    rw [(transform_written id3 pin pout np p (by omega)).2, ha, hb, point_out_id3]

/-- Witness for C7 at a concrete input: batch size 5 (one SIMD group plus
a scalar tail of one), constant input point `(3, 3)`, slot 7 (a tail
slot) comes out unchanged. -/
theorem C7_witness :
    transform_points_batch id3 (fun _ => F.num 3) (fun _ => F.nan) 5 7 = F.num 3 :=
  C7_identity (fun _ => F.num 3) (fun _ => F.nan) 5 (fun _ _ => rfl) 7 (by decide)

/-- Claim C9: the batch transform never reads or writes outside its
contract: for a non-positive count nothing is written, and in general no
output position at or beyond `2 * num_points` is written (the input
buffer is a read-only argument of the embedding, as it is `const` in the
source). -/
theorem C9_frame (M : M3) (pin pout : ℕ → F) (np : ℤ) :
    (np ≤ 0 → ∀ j, transform_points_batch M pin pout np j = pout j)
    ∧ (∀ j, 2 * np.toNat ≤ j → transform_points_batch M pin pout np j = pout j) := by
  refine ⟨fun hnp j => transform_unchanged M pin pout np j (by omega),
    fun j hj => transform_unchanged M pin pout np j hj⟩

/-- Witness for C9 at concrete inputs: count `-3` writes nothing at slot
0; count `2` leaves slot 4 (the first slot past the batch) unchanged. -/
theorem C9_witness :
    transform_points_batch id3 (fun _ => F.num 1) (fun _ => F.num 5) (-3) 0 = F.num 5
    ∧ transform_points_batch id3 (fun _ => F.num 1) (fun _ => F.num 5) 2 4 = F.num 5 :=
  ⟨(C9_frame id3 (fun _ => F.num 1) (fun _ => F.num 5) (-3)).1 (by norm_num) 0,
   (C9_frame id3 (fun _ => F.num 1) (fun _ => F.num 5) 2).2 4 (by decide)⟩

/-- Claim C10: output point `i` depends only on the matrix and input
point `i`: two runs with the same matrix and count whose input batches
agree at slot `i` agree at output slot `i`, whatever every other point
and the initial output contents are (and each run is a pure function of
its arguments). -/
theorem C10_per_point_dependence (M : M3) (np : ℤ)
    (pin1 pin2 pout1 pout2 : ℕ → F) (i : ℕ) (hi : i < np.toNat)
    (hx : pin1 (2 * i) = pin2 (2 * i)) (hy : pin1 (2 * i + 1) = pin2 (2 * i + 1)) :
    transform_points_batch M pin1 pout1 np (2 * i)
        = transform_points_batch M pin2 pout2 np (2 * i)
    ∧ transform_points_batch M pin1 pout1 np (2 * i + 1)
        = transform_points_batch M pin2 pout2 np (2 * i + 1) := by
  have h1 := transform_written M pin1 pout1 np i hi
  have h2 := transform_written M pin2 pout2 np i hi
  rw [hx, hy] at h1
  exact ⟨h1.1.trans h2.1.symm, h1.2.trans h2.2.symm⟩

/-- Witness for C10 at concrete inputs: two batches of one point that
agree on point 0 but have different out-of-range data and different
initial output buffers produce the same output slot 0. -/
theorem C10_witness :
    transform_points_batch id3 (fun _ => F.num 2) (fun _ => F.nan) 1 0
      = transform_points_batch id3 (fun t => if t < 2 then F.num 2 else F.num 9)
          (fun _ => F.num 0) 1 0 := by
  have h := (C10_per_point_dependence id3 1 (fun _ => F.num 2)
    (fun t => if t < 2 then F.num 2 else F.num 9) (fun _ => F.nan) (fun _ => F.num 0) 0
    (by decide) (by norm_num) (by norm_num)).1
  simpa using h

/-! ## `determinant` and `invert_matrix`

Eigen (vendored under `core_cpp/vendor`, not part of the sources at
hand) supplies `m.determinant()`, `FullPivLU` and `lu.inverse()`.  The
3×3 closed-form determinant is modelled directly; the LU decomposition is
modelled abstractly: `invert_matrix` is parametric in the routine
producing the LU-derived determinant and inverse, so the theorems hold
for every behaviour of that routine, and `lu_exact` is the exact-arithmetic
instance used in witnesses. -/

/-- Eigen's closed-form 3×3 determinant (cofactor expansion along the
first row, Eigen's `bruteforce_det3_helper` association
`(t1 - t2) + t3`), over the exact `F` model — this exact-arithmetic
version backs the exact LU instance `lu_exact` of §4.2.  The float32
behaviour of `determinant(m_ptr)` itself, including overflow, is
embedded as `determinant32` below.  In the `M3` column-major layout:
`M00 = m0`, `M01 = m3`, `M02 = m6`, `M10 = m1`, `M11 = m4`, `M12 = m7`,
`M20 = m2`, `M21 = m5`, `M22 = m8`. -/
def determinant (m : M3) : F :=
  F.add
    (F.sub (F.mul m.m0 (F.sub (F.mul m.m4 m.m8) (F.mul m.m7 m.m5)))
      (F.mul m.m3 (F.sub (F.mul m.m1 m.m8) (F.mul m.m7 m.m2))))
    (F.mul m.m6 (F.sub (F.mul m.m1 m.m5) (F.mul m.m4 m.m2)))

/-! ### Float32 overflow model for `determinant`

Claim C8 quantifies over inputs whose cofactor intermediates can exceed
the float32 range, so for `determinant` the value model must make
overflow observable.  `G` extends the exact-rational-plus-NaN model with
IEEE signed infinities: each arithmetic operation computes the exact
rational result and overflows to a signed infinity when its magnitude
reaches the float32 round-to-nearest overflow threshold; infinities and
NaN then combine by the IEEE rules (`Inf - Inf = NaN`, `Inf * 0 = NaN`,
NaN propagates).  Rounding below the threshold is still not modelled;
the C8 counterexample uses powers of two, on which float32 arithmetic is
exact up to the overflowing operations, so the model and the program
agree on it step by step. -/

/-- A float32 value for the overflow-aware model: an exact finite
rational, a signed infinity (`true` = negative), or quiet NaN. -/
inductive G where
  | fin : ℚ → G
  | inf : Bool → G
  | nan : G
deriving DecidableEq, Repr

/-- The float32 round-to-nearest overflow threshold: exact results with
magnitude at or above `2^128 - 2^103` (halfway between the largest
finite float32 `2^128 - 2^104` and `2^128`) round to a signed
infinity. -/
def OVF : ℚ := 2 ^ 128 - 2 ^ 103

/-- IEEE float32 multiplication with overflow: exact below the overflow
threshold, signed infinity at or above it; `Inf * 0 = NaN`; NaN
propagates. -/
def G.mul : G → G → G
  | fin a, fin b => if |a * b| < OVF then fin (a * b) else inf (decide (a * b < 0))
  | fin a, inf s => if a = 0 then nan else inf (Bool.xor (decide (a < 0)) s)
  | inf s, fin b => if b = 0 then nan else inf (Bool.xor s (decide (b < 0)))
  | inf s, inf t => inf (Bool.xor s t)
  | _, _ => nan

/-- IEEE float32 subtraction with overflow; `Inf - Inf` of like signs is
NaN; NaN propagates. -/
def G.sub : G → G → G
  | fin a, fin b => if |a - b| < OVF then fin (a - b) else inf (decide (a - b < 0))
  | fin _, inf s => inf (!s)
  | inf s, fin _ => inf s
  | inf s, inf t => if s = t then nan else inf s
  | _, _ => nan

/-- IEEE float32 addition with overflow; `Inf + (-Inf)` is NaN; NaN
propagates. -/
def G.add : G → G → G
  | fin a, fin b => if |a + b| < OVF then fin (a + b) else inf (decide (a + b < 0))
  | fin _, inf s => inf s
  | inf s, fin _ => inf s
  | inf s, inf t => if s = t then inf s else nan
  | _, _ => nan

/-- NaN test on the overflow-aware model. -/
def G.isNaN : G → Bool
  | nan => true
  | _ => false

/-- `determinant(m_ptr)` as the source computes it in float32: Eigen's
3×3 cofactor expansion (`(t1 - t2) + t3`) over the overflow-aware model
`G`.  The argument is the raw column-major 9-float buffer of the
`Matrix3f` view, so `M(r,c) = m (c*3 + r)`: the same layout as `M3`. -/
def determinant32 (m : Fin 9 → G) : G :=
  G.add
    (G.sub (G.mul (m 0) (G.sub (G.mul (m 4) (m 8)) (G.mul (m 7) (m 5))))
      (G.mul (m 3) (G.sub (G.mul (m 1) (m 8)) (G.mul (m 7) (m 2)))))
    (G.mul (m 6) (G.sub (G.mul (m 1) (m 5)) (G.mul (m 4) (m 2))))

lemma G.mul_fin (a b : ℚ) (h : |a * b| < OVF) :
    G.mul (G.fin a) (G.fin b) = G.fin (a * b) := by
  simp [G.mul, h]

lemma G.sub_fin (a b : ℚ) (h : |a - b| < OVF) :
    G.sub (G.fin a) (G.fin b) = G.fin (a - b) := by
  simp [G.sub, h]

lemma G.add_fin (a b : ℚ) (h : |a + b| < OVF) :
    G.add (G.fin a) (G.fin b) = G.fin (a + b) := by
  simp [G.add, h]

/-- Result of a pivoted LU decomposition of a 3×3 matrix, as consumed by
`invert_matrix`: the determinant derived from the pivots, and the inverse
computed from the factors. -/
structure LU3 where
  lu_det : F
  lu_inv : M3

/-- Modelled from the spec: Eigen's `FullPivLU` is vendored outside the
given sources.  §4.2: the determinant is the product of the pivots with
the permutation sign, which in exact arithmetic equals the closed-form
determinant; the inverse is computed by back-substitution, which in exact
arithmetic equals the adjugate divided by the determinant. -/
def lu_exact (m : M3) : LU3 :=
  { lu_det := determinant m
    lu_inv :=
      { m0 := F.div (F.sub (F.mul m.m4 m.m8) (F.mul m.m7 m.m5)) (determinant m)
        m1 := F.div (F.sub (F.mul m.m7 m.m2) (F.mul m.m1 m.m8)) (determinant m)
        m2 := F.div (F.sub (F.mul m.m1 m.m5) (F.mul m.m4 m.m2)) (determinant m)
        m3 := F.div (F.sub (F.mul m.m6 m.m5) (F.mul m.m3 m.m8)) (determinant m)
        m4 := F.div (F.sub (F.mul m.m0 m.m8) (F.mul m.m6 m.m2)) (determinant m)
        m5 := F.div (F.sub (F.mul m.m3 m.m2) (F.mul m.m0 m.m5)) (determinant m)
        m6 := F.div (F.sub (F.mul m.m3 m.m7) (F.mul m.m6 m.m4)) (determinant m)
        m7 := F.div (F.sub (F.mul m.m6 m.m1) (F.mul m.m0 m.m7)) (determinant m)
        m8 := F.div (F.sub (F.mul m.m0 m.m4) (F.mul m.m3 m.m1)) (determinant m) } }

/-- `invert_matrix(m_ptr, out_ptr)`, parametric in the LU routine `lu`.
If `|lu-determinant| < MATRIX_INVERSE_EPSILON` the output is NaN-filled
and the status is `0`; otherwise the output is the LU inverse and the
status is `1`.  The source's post-hoc finiteness check
(`out.array().isNaN().any() || out.array().isInf().any()`) has an empty
body (its `return 0` is commented out), so it is embedded as a branch
with identical arms; in the exact-arithmetic model infinities never
arise, so the `isInf` half of the condition is identically false and is
dropped. -/
def invert_matrix (lu : M3 → LU3) (m : M3) : ℤ × M3 :=
  let det := (lu m).lu_det
  if F.lt (F.abs det) (F.num MATRIX_INVERSE_EPSILON) then
    (0, m3const F.nan)
  else
    let out := (lu m).lu_inv
    if m3hasNaN out then (1, out) else (1, out)

/-! ## `solve_homography_svd`

Eigen's `JacobiSVD` is likewise vendored outside the given sources; it is
modelled abstractly as an arbitrary routine producing a convergence flag
(`svd.info() == Success`), the singular values, and a least-squares solve
function.  The claims about `solve_homography_svd` are control-flow
properties of the wrapper and hold for every behaviour of the routine. -/

/-- An 8-vector view (`Vector8f`). -/
abbrev Vector8 : Type := Fin 8 → F

/-- An 8×8 matrix view (`Matrix8f`). -/
abbrev Matrix8 : Type := Fin 8 → Fin 8 → F

/-- Modelled from the spec: the outputs of Eigen's
`JacobiSVD<Matrix8f>(A, ComputeFullU | ComputeFullV)` that the wrapper
consumes — whether the decomposition succeeded, the singular values, and
`svd.solve` (the SVD least-squares solve as a function of `b`). -/
structure SVD8 where
  info_success : Bool
  singularValues : Fin 8 → F
  solve : Vector8 → Vector8

/-- Eigen's `maxCoeff()` over the 8 singular values, modelled as a fold
of pairwise maxima (Eigen's result on NaN inputs is unspecified; every
claim below holds for any value of this fold). -/
def maxCoeff8 (v : Fin 8 → F) : F :=
  F.max (F.max (F.max (F.max (F.max (F.max (F.max (v 0) (v 1)) (v 2)) (v 3)) (v 4))
    (v 5)) (v 6)) (v 7)

/-- `solve_homography_svd(a_ptr, b_ptr, x_ptr)`, parametric in the SVD
routine `jacobiSVD`.  Returns the status and the final contents of the
output vector `x`.  Note the third failure path (post-solve NaN check):
it returns `false` with `x` holding the solved vector, without
NaN-filling it. -/
def solve_homography_svd (jacobiSVD : Matrix8 → SVD8) (A : Matrix8) (b : Vector8) :
    Bool × Vector8 :=
  let svd := jacobiSVD A
  if svd.info_success = false then
    (false, fun _ => F.nan)
  else
    let threshold := F.mul (F.num MATRIX_SVD_EPSILON) (maxCoeff8 svd.singularValues)
    if ∃ k, F.lt (F.abs (svd.singularValues k)) threshold = true then
      (false, fun _ => F.nan)
    else
      let x := svd.solve b
      if ∃ k, F.isNaN (x k) = true then (false, x)
      else (true, x)

lemma F.lt_eq_false_of_ge (a b : F) (h : F.ge a b = true) : F.lt a b = false := by
  cases a with
  | nan => simp [F.ge] at h
  | num x =>
    cases b with
    | nan => simp [F.ge] at h
    | num y =>
      simp [F.ge] at h
      simp [F.lt, not_lt.mpr h]

lemma F.isNaN_iff (x : F) : F.isNaN x = true ↔ x = F.nan := by
  cases x <;> simp [F.isNaN]

/-! ## Claim theorems for `invert_matrix` and `determinant` -/

/-- Claim C4: whenever the LU-derived determinant has magnitude at least
`MATRIX_INVERSE_EPSILON`, `invert_matrix` returns status `1`, for every
possible computed inverse (including one containing NaN): the post-hoc
finiteness check never changes the returned status. -/
theorem C4_success_status (lu : M3 → LU3) (m : M3)
    (h : F.ge (F.abs (lu m).lu_det) (F.num MATRIX_INVERSE_EPSILON) = true) :
    (invert_matrix lu m).1 = 1 := by
  simp only [invert_matrix]
  rw [F.lt_eq_false_of_ge _ _ h]
  simp only [Bool.false_eq_true, if_false]
  split <;> rfl

/-- Witness for C4 at a concrete input: an LU routine whose determinant
is 1 but whose computed inverse is entirely NaN still yields status 1. -/
theorem C4_witness :
    (invert_matrix (fun _ => ⟨F.num 1, m3const F.nan⟩) id3).1 = 1 :=
  C4_success_status (fun _ => ⟨F.num 1, m3const F.nan⟩) id3
    (by norm_num [F.ge, F.abs, MATRIX_INVERSE_EPSILON])

/-- Claim C5: whenever the LU-derived determinant has magnitude below
`MATRIX_INVERSE_EPSILON`, `invert_matrix` reports failure (status `0`)
and the output matrix is NaN in all nine entries. -/
theorem C5_singular_nan_filled (lu : M3 → LU3) (m : M3)
    (h : F.lt (F.abs (lu m).lu_det) (F.num MATRIX_INVERSE_EPSILON) = true) :
    invert_matrix lu m = (0, m3const F.nan) := by
  simp only [invert_matrix, h, if_true]

/-- Witness for C5 at a concrete input: the rank-deficient matrix with
rows (1,2,3), (1,2,3), (4,5,6) (the spec's two-identical-rows example)
under the exact LU model has determinant 0, so inversion fails and the
output is all-NaN. -/
theorem C5_witness :
    invert_matrix lu_exact
      ⟨F.num 1, F.num 1, F.num 4, F.num 2, F.num 2, F.num 5,
       F.num 3, F.num 3, F.num 6⟩ = (0, m3const F.nan) := by
  have hdet : determinant
      ⟨F.num 1, F.num 1, F.num 4, F.num 2, F.num 2, F.num 5,
       F.num 3, F.num 3, F.num 6⟩ = F.num 0 := by
    norm_num [determinant, F.mul, F.sub, F.add]
  exact C5_singular_nan_filled lu_exact _
    (by rw [show (lu_exact
        ⟨F.num 1, F.num 1, F.num 4, F.num 2, F.num 2, F.num 5,
         F.num 3, F.num 3, F.num 6⟩).lu_det = F.num 0 from hdet]
        norm_num [F.abs, F.lt, MATRIX_INVERSE_EPSILON])

/-- Counterexample to claim C8 as stated: on the NaN-free matrix all of
whose nine entries are `2^70` (exactly representable in float32, so the
model and the program agree step by step), every cofactor product is
`2^140`, which overflows to `+Inf`; the differences `Inf - Inf` give
NaN, and `determinant` returns NaN although no input entry is NaN. -/
theorem C8_counterexample :
    (∀ k, G.isNaN ((fun _ : Fin 9 => G.fin (2 ^ 70)) k) = false)
    ∧ G.isNaN (determinant32 (fun _ => G.fin (2 ^ 70))) = true := by
  refine ⟨fun _ => rfl, ?_⟩
  norm_num [determinant32, G.mul, G.sub, G.add, G.isNaN, OVF]

/-- Claim C8 amended: `determinant` is total (no failure mode), and on a
NaN-free matrix whose cofactor intermediates — the six entry products,
the three differences, the three first-row multiplications and the two
outer sums — all stay below the float32 overflow threshold, the result
is the exact, finite determinant, in particular not NaN.  NaN output
from NaN-free input arises only through overflow, as in the
counterexample. -/
theorem C8_det_finite_without_overflow (q : Fin 9 → ℚ)
    (h1 : |q 4 * q 8| < OVF) (h2 : |q 7 * q 5| < OVF)
    (h3 : |q 4 * q 8 - q 7 * q 5| < OVF)
    (h4 : |q 0 * (q 4 * q 8 - q 7 * q 5)| < OVF)
    (h5 : |q 1 * q 8| < OVF) (h6 : |q 7 * q 2| < OVF)
    (h7 : |q 1 * q 8 - q 7 * q 2| < OVF)
    (h8 : |q 3 * (q 1 * q 8 - q 7 * q 2)| < OVF)
    (h9 : |q 1 * q 5| < OVF) (h10 : |q 4 * q 2| < OVF)
    (h11 : |q 1 * q 5 - q 4 * q 2| < OVF)
    (h12 : |q 6 * (q 1 * q 5 - q 4 * q 2)| < OVF)
    (h13 : |q 0 * (q 4 * q 8 - q 7 * q 5) - q 3 * (q 1 * q 8 - q 7 * q 2)| < OVF)
    (h14 : |q 0 * (q 4 * q 8 - q 7 * q 5) - q 3 * (q 1 * q 8 - q 7 * q 2)
        + q 6 * (q 1 * q 5 - q 4 * q 2)| < OVF) :
    determinant32 (fun k => G.fin (q k))
      = G.fin (q 0 * (q 4 * q 8 - q 7 * q 5) - q 3 * (q 1 * q 8 - q 7 * q 2)
          + q 6 * (q 1 * q 5 - q 4 * q 2)) := by
  simp only [determinant32]
  rw [G.mul_fin _ _ h1, G.mul_fin _ _ h2, G.sub_fin _ _ h3, G.mul_fin _ _ h4,
    G.mul_fin _ _ h5, G.mul_fin _ _ h6, G.sub_fin _ _ h7, G.mul_fin _ _ h8,
    G.mul_fin _ _ h9, G.mul_fin _ _ h10, G.sub_fin _ _ h11, G.mul_fin _ _ h12,
    G.sub_fin _ _ h13, G.add_fin _ _ h14]

/-- Witness for the amended C8 at a concrete input: the all-zero matrix
overflows nowhere and its float32 determinant is the exact finite 0. -/
theorem C8_witness : determinant32 (fun _ => G.fin 0) = G.fin 0 := by
  have h := C8_det_finite_without_overflow (fun _ => 0)
    (by norm_num [OVF]) (by norm_num [OVF]) (by norm_num [OVF]) (by norm_num [OVF])
    (by norm_num [OVF]) (by norm_num [OVF]) (by norm_num [OVF]) (by norm_num [OVF])
    (by norm_num [OVF]) (by norm_num [OVF]) (by norm_num [OVF]) (by norm_num [OVF])
    (by norm_num [OVF]) (by norm_num [OVF])
  simpa using h

/-! ## Claim theorems for `solve_homography_svd` -/

/-- Claim C6: when the SVD converged and some singular value's magnitude
is below `threshold = MATRIX_SVD_EPSILON * max(singular values)`, the
solver NaN-fills the whole output vector and returns `false`. -/
theorem C6_rank_deficient_nan_filled (jac : Matrix8 → SVD8) (A : Matrix8) (b : Vector8)
    (hinfo : (jac A).info_success = true)
    (hsv : ∃ k, F.lt (F.abs ((jac A).singularValues k))
        (F.mul (F.num MATRIX_SVD_EPSILON) (maxCoeff8 (jac A).singularValues)) = true) :
    solve_homography_svd jac A b = (false, fun _ => F.nan) := by
  simp only [solve_homography_svd]
  rw [if_neg (by simp [hinfo]), if_pos hsv]

/-- Witness for C6 at a concrete input: singular values (0,1,…,1) give
threshold `MATRIX_SVD_EPSILON * 1`, and `|0|` is below it. -/
theorem C6_witness :
    solve_homography_svd
      (fun _ => ⟨true, fun k => if k = 0 then F.num 0 else F.num 1, fun v => v⟩)
      (fun _ _ => F.num 0) (fun _ => F.num 0) = (false, fun _ => F.nan) :=
  C6_rank_deficient_nan_filled _ _ _ rfl
    ⟨0, by norm_num [maxCoeff8, F.max, max_def, F.abs, F.lt, F.mul, MATRIX_SVD_EPSILON,
      (by decide : ¬((1 : Fin 8) = 0)), (by decide : ¬((2 : Fin 8) = 0)),
      (by decide : ¬((3 : Fin 8) = 0)), (by decide : ¬((4 : Fin 8) = 0)),
      (by decide : ¬((5 : Fin 8) = 0)), (by decide : ¬((6 : Fin 8) = 0)),
      (by decide : ¬((7 : Fin 8) = 0))]⟩

/-- An SVD behaviour on which claim C1 fails: the decomposition
converges, all singular values are 1 (so the conditioning check passes),
and the solved vector is NaN in component 0 only.  Such partially-NaN
solve results are reachable in float arithmetic (e.g. via intermediate
overflow to infinity inside the least-squares back-substitution). -/
def svd_mixed_nan : SVD8 :=
  ⟨true, fun _ => F.num 1,
   fun _ => fun i => if i = 0 then F.nan else F.num 0⟩

/-- Counterexample to claim C1 as stated: a run of `solve_homography_svd`
in which the SVD converges and the conditioning check passes but the
solved vector contains a NaN returns `false` with the solved vector as
output — component 1 of the output is 0, not NaN, so the output is not
fully overwritten with NaN on this failure path. -/
theorem C1_counterexample :
    (solve_homography_svd (fun _ => svd_mixed_nan)
      (fun _ _ => F.num 0) (fun _ => F.num 0)).1 = false
    ∧ (solve_homography_svd (fun _ => svd_mixed_nan)
      (fun _ _ => F.num 0) (fun _ => F.num 0)).2 1 ≠ F.nan := by
  have hres : solve_homography_svd (fun _ => svd_mixed_nan)
      (fun _ _ => F.num 0) (fun _ => F.num 0)
      = (false, fun i => if i = 0 then F.nan else F.num 0) := by
    simp only [solve_homography_svd]
    rw [if_neg (by simp [svd_mixed_nan]),
      if_neg (by norm_num [svd_mixed_nan, maxCoeff8, F.max, max_def, F.abs, F.lt,
        F.mul, MATRIX_SVD_EPSILON]),
      if_pos ⟨0, by simp [svd_mixed_nan, F.isNaN]⟩]
    rfl
  refine ⟨by rw [hres], by rw [hres]; simp⟩

/-- Claim C1 amended: whenever `solve_homography_svd` returns `false`,
the output vector contains at least one NaN component (it is fully
NaN-filled on the convergence-failure and conditioning-failure paths,
but on the post-solve NaN-check path the solved vector is returned
as-is and may be only partially NaN). -/
theorem C1_failure_output_has_nan (jac : Matrix8 → SVD8) (A : Matrix8) (b : Vector8)
    (h : (solve_homography_svd jac A b).1 = false) :
    ∃ i, (solve_homography_svd jac A b).2 i = F.nan := by
  simp only [solve_homography_svd] at h ⊢
  by_cases h1 : (jac A).info_success = false
  · simp only [if_pos h1]
    exact ⟨0, by simp⟩
  · simp only [if_neg h1] at h ⊢
    by_cases h2 : ∃ k, F.lt (F.abs ((jac A).singularValues k))
        (F.mul (F.num MATRIX_SVD_EPSILON) (maxCoeff8 (jac A).singularValues)) = true
    · simp only [if_pos h2]
      exact ⟨0, by simp⟩
    · simp only [if_neg h2] at h ⊢
      by_cases h3 : ∃ k, F.isNaN ((jac A).solve b k) = true
      · simp only [if_pos h3]
        obtain ⟨k, hk⟩ := h3
        exact ⟨k, (F.isNaN_iff _).mp hk⟩
      · simp only [if_neg h3] at h
        exact absurd h (by simp)

/-- Witness for the amended C1 at a concrete input: a non-converging
decomposition makes the solver fail, and the output indeed contains a
NaN. -/
theorem C1_witness :
    ∃ i, (solve_homography_svd (fun _ => ⟨false, fun _ => F.num 1, fun v => v⟩)
      (fun _ _ => F.num 1) (fun _ => F.num 1)).2 i = F.nan :=
  C1_failure_output_has_nan _ _ _ (by decide)

end MatrixOps
